import Mathlib

/-!
Verification development for the PackageLootBox repository.

The repository manages a catalog of lootboxes and skins stored in three
record sets (`lootbox_reference`, `skins_reference`, `lootbox_skins`) behind
a Supabase client.  The development below is a shallow embedding of
`lootbox/lootbox_manager.py` and `lootbox/skin_manager.py`:

* the three tables become lists of records inside a `Store` structure;
* numeric fields (`base_price`, `drop_rate`, probabilities) are modelled as
  exact rationals;
* every manager operation becomes a function from a `Store` to a result,
  the updated `Store`, and the list of store calls it issued; a failure
  oracle (`fail : StoreCall → Bool`) decides which issued mutating calls
  return a failure signal (empty / null `data`), mirroring the
  `response.data` checks in the Python code;
* each distinct `raise ValueError` site becomes one constructor of `Err`.

Read helpers (`single`-row selects) are modelled as pure lookups, following
the repository's own unit tests, which model an absent row as `data = None`.
The call trace records mutating calls plus the paginated range selects of
the listing operations (the only remote calls those operations perform).
-/

namespace PackageLootBox

/-- Record of the `skins_reference` table: `id` (UUID string), unique
`name`, `base_price`, `available`. -/
structure Skin where
  id : String
  name : String
  base_price : ℚ
  available : Bool
deriving DecidableEq

/-- Record of the `lootbox_reference` table: `lootbox_id`, unique `name`,
`description`, and a derived `base_price` (absent until first computed). -/
structure LootboxRef where
  lootbox_id : Nat
  name : String
  description : String
  base_price : Option ℚ
deriving DecidableEq

/-- Record of the `lootbox_skins` join table: one membership edge carrying a
`drop_rate`. -/
structure LootboxSkin where
  lootbox_id : Nat
  skin_id : String
  drop_rate : ℚ
deriving DecidableEq

/-- The external store: the three record sets consumed by the managers. -/
structure Store where
  skins_reference : List Skin
  lootbox_reference : List LootboxRef
  lootbox_skins : List LootboxSkin
deriving DecidableEq

/-- Store calls issued by the manager operations: all mutating calls, plus
the paginated range selects of the listing operations (the only remote call
each of those performs).  A range select records the Python arguments
`offset` and `limit` of `.range(offset, offset + limit - 1)`. -/
inductive StoreCall where
  | selectLootboxRange (offset limit : Int)
  | selectSkinsRange (offset limit : Int)
  | selectFilteredSkins (min_price max_price : ℚ) (order : String)
      (name_contains : Option String) (offset limit : Int)
  | insertLootboxRef (name description : String)
  | insertLootboxSkins (rows : List LootboxSkin)
  | updateBasePrice (name : String)
  | updateDropRate (lootbox_id : Nat) (skin_id : String)
  | deleteLootboxSkins (lootbox_id : Nat)
  | deleteLootboxRef (lootbox_id : Nat)
deriving DecidableEq

/-- Error outcomes: one constructor per distinct `raise ValueError` site of
the Python managers (all of which surface as `ValueError` to the caller). -/
inductive Err where
  | lootboxNotFound (name : String)
  | lootboxEmpty (name : String)
  | wrongSkinCount
  | skinNotInLootbox (skinName : String)
  | probSumInvalid
  | basePriceUpdateFailed
  | dropRateUpdateFailed (skinName : String)
  | insertSkinsFailed
  | blankNameOrDescription
  | duplicateLootboxName
  | insertLootboxFailed
  | deleteSkinsFailed
  | deleteLootboxFailed
  | invalidLimit
  | invalidOffset
  | invalidOrder (order : String)
  | invalidPriceRange
  | storeError
deriving DecidableEq

/-- Errors of the `InvalidArgument` kind in the taxonomy of the spec
(caller-supplied values violating preconditions of listing queries). -/
def Err.isInvalidArgument : Err → Bool
  | .invalidLimit => true
  | .invalidOffset => true
  | .invalidOrder _ => true
  | .invalidPriceRange => true
  | _ => false

/-- Outcome of one manager operation: the returned value or error, the
store after the operation, and the store calls issued. -/
structure RunResult (α : Type) where
  res : Except Err α
  store : Store
  calls : List StoreCall

/-- Embeds `SkinManager.get_skin_by_id` (skin_manager.py:127-156): single-row
select on `skins_reference` by `id`; absent row yields `none`. -/
def get_skin_by_id (s : Store) (sid : String) : Option Skin :=
  s.skins_reference.find? (fun sk => sk.id == sid)

/-- Embeds `SkinManager.get_skin_by_name` (skin_manager.py:158-187):
single-row select on `skins_reference` by exact `name`. -/
def get_skin_by_name (s : Store) (n : String) : Option Skin :=
  s.skins_reference.find? (fun sk => sk.name == n)

/-- Embeds `LootboxManager.get_lootbox_id_by_name`
(lootbox_manager.py:44-73): single-row select of `lootbox_id` by `name`. -/
def get_lootbox_id_by_name (s : Store) (n : String) : Option Nat :=
  (s.lootbox_reference.find? (fun lb => lb.name == n)).map (fun lb => lb.lootbox_id)

/-- The `lootbox_skins` rows selected by `.eq("lootbox_id", lootbox_id)`. -/
def lootboxEdges (s : Store) (lid : Nat) : List LootboxSkin :=
  s.lootbox_skins.filter (fun e => e.lootbox_id == lid)

/-- Embeds `LootboxManager.get_lootbox_contents` (lootbox_manager.py:75-114):
resolves the name (the Python truthiness test `if not lootbox_id` treats
both `None` and `0` as absent), loads the membership edges, and resolves
each edge to its full skin record, dropping edges whose skin is absent. -/
def get_lootbox_contents (s : Store) (name : String) : Except Err (List Skin) :=
  match get_lootbox_id_by_name s name with
  | none => .error (.lootboxNotFound name)
  | some lid =>
    if lid = 0 then .error (.lootboxNotFound name)
    else .ok ((lootboxEdges s lid).filterMap (fun e => get_skin_by_id s e.skin_id))

/-- Embeds `LootboxManager.delete` (lootbox_manager.py:227-265): resolve the
name, delete all membership edges, then delete the lootbox record.  The
skins deletion only fails on a store failure signal (`data is None`;
deleting zero edges is not an error), while the lootbox deletion also fails
when no row was deleted (`if not delete_lootbox_response.data`). -/
def delete (fail : StoreCall → Bool) (s : Store) (name : String) : RunResult Unit :=
  match get_lootbox_id_by_name s name with
  | none => ⟨.error (.lootboxNotFound name), s, []⟩
  | some lid =>
    if lid = 0 then ⟨.error (.lootboxNotFound name), s, []⟩
    else
      let c1 := StoreCall.deleteLootboxSkins lid
      if fail c1 then ⟨.error .deleteSkinsFailed, s, [c1]⟩
      else
        let s1 : Store :=
          { s with lootbox_skins := s.lootbox_skins.filter (fun e => ¬ e.lootbox_id = lid) }
        let c2 := StoreCall.deleteLootboxRef lid
        if fail c2 then ⟨.error .deleteLootboxFailed, s1, [c1, c2]⟩
        else if s1.lootbox_reference.countP (fun lb => lb.lootbox_id == lid) = 0 then
          ⟨.error .deleteLootboxFailed, s1, [c1, c2]⟩
        else
          ⟨.ok (),
           { s1 with lootbox_reference :=
              s1.lootbox_reference.filter (fun lb => ¬ lb.lootbox_id = lid) },
           [c1, c2]⟩

/-- The set of skin ids already attached to the lootbox, computed once from
the `lootbox_skins` select before the staging loop of
`LootboxManager.update` (lootbox_manager.py:179-189). -/
def existingSkinIds (s : Store) (lid : Nat) : List String :=
  (lootboxEdges s lid).map (fun e => e.skin_id)

/-- Embeds the staging loop of `LootboxManager.update`
(lootbox_manager.py:191-210).  Each requested skin name is looked up by
name; absent skins and skins without a resolvable id (the truthiness test
`if not skin_id`) are recorded in `not_found`, current members in
`duplicates`, and the rest are staged as new edges with `drop_rate = 0`.
Returns `(skins_to_add, duplicates, not_found)` in request order. -/
def classifySkins (s : Store) (lid : Nat) (existing : List String) :
    List String → List LootboxSkin × List String × List String
  | [] => ([], [], [])
  | n :: rest =>
    let r := classifySkins s lid existing rest
    match get_skin_by_name s n with
    | none => (r.1, r.2.1, n :: r.2.2)
    | some sk =>
      if sk.id = "" then (r.1, r.2.1, n :: r.2.2)
      else if existing.contains sk.id then (r.1, n :: r.2.1, r.2.2)
      else (⟨lid, sk.id, 0⟩ :: r.1, r.2.1, r.2.2)

/-- Embeds `LootboxManager.update` (lootbox_manager.py:155-225), the
add-skins operation: resolve the lootbox, classify the requested names
against the current edge set, batch-insert the staged edges (skipping the
insert when nothing is staged), and return the full contents via
`get_lootbox_contents`. -/
def update (fail : StoreCall → Bool) (s : Store) (name : String)
    (skin_names : List String) : RunResult (List Skin) :=
  match get_lootbox_id_by_name s name with
  | none => ⟨.error (.lootboxNotFound name), s, []⟩
  | some lid =>
    if lid = 0 then ⟨.error (.lootboxNotFound name), s, []⟩
    else
      let adds := (classifySkins s lid (existingSkinIds s lid) skin_names).1
      if adds = [] then
        match get_lootbox_contents s name with
        | .error e => ⟨.error e, s, []⟩
        | .ok l => ⟨.ok l, s, []⟩
      else
        let call := StoreCall.insertLootboxSkins adds
        if fail call then ⟨.error .insertSkinsFailed, s, [call]⟩
        else
          let s' : Store := { s with lootbox_skins := s.lootbox_skins ++ adds }
          match get_lootbox_contents s' name with
          | .error e => ⟨.error e, s', [call]⟩
          | .ok l => ⟨.ok l, s', [call]⟩

/-- Fresh identifier handed out by the store for an inserted lootbox row,
modelled as one more than the largest identifier in use (the backing
store's serial column; always positive). -/
def nextLootboxId (s : Store) : Nat :=
  (s.lootbox_reference.map (fun lb => lb.lootbox_id)).foldr max 0 + 1

/-- Whether a string strips to nothing: the semantics of the Python
truthiness test `not s.strip()` (the string holds only whitespace). -/
def isBlank (s : String) : Bool :=
  s.data.all (fun c => c.isWhitespace)

/-- Embeds `LootboxManager.create` (lootbox_manager.py:116-153): reject
blank name or description (after stripping), reject an existing name, then
insert a new lootbox row with no members and no computed price. -/
def create (fail : StoreCall → Bool) (s : Store) (name description : String) :
    RunResult Unit :=
  if isBlank name ∨ isBlank description then
    ⟨.error .blankNameOrDescription, s, []⟩
  else if s.lootbox_reference.filter (fun lb => lb.name == name) ≠ [] then
    ⟨.error .duplicateLootboxName, s, []⟩
  else
    let call := StoreCall.insertLootboxRef name description
    if fail call then ⟨.error .insertLootboxFailed, s, [call]⟩
    else
      ⟨.ok (),
       { s with lootbox_reference :=
          s.lootbox_reference ++ [⟨nextLootboxId s, name, description, none⟩] },
       [call]⟩

/-- Embeds `LootboxManager.get_all_lootbox` (lootbox_manager.py:13-42):
validate `limit` and `offset`, then issue one paginated range select.  The
response for degenerate ranges is modelled as the usual list slice. -/
def get_all_lootbox (fail : StoreCall → Bool) (s : Store) (limit offset : Int) :
    RunResult (List LootboxRef) :=
  if limit ≤ 0 then ⟨.error .invalidLimit, s, []⟩
  else if offset < 0 then ⟨.error .invalidOffset, s, []⟩
  else
    let call := StoreCall.selectLootboxRange offset limit
    if fail call then ⟨.error .storeError, s, [call]⟩
    else ⟨.ok ((s.lootbox_reference.drop offset.toNat).take limit.toNat), s, [call]⟩

/-- Embeds `SkinManager.get_all_skins` (skin_manager.py:10-34): issues the
paginated range select directly — the Python method performs no validation
of `limit` or `offset` before executing the remote query. -/
def get_all_skins (fail : StoreCall → Bool) (s : Store) (limit offset : Int) :
    RunResult (List Skin) :=
  let call := StoreCall.selectSkinsRange offset limit
  if fail call then ⟨.error .storeError, s, [call]⟩
  else ⟨.ok ((s.skins_reference.drop offset.toNat).take limit.toNat), s, [call]⟩

/-- Ascending comparison on skins by `base_price`, the sort key of the
filtered listing query. -/
def priceLe (a b : Skin) : Prop := a.base_price ≤ b.base_price

/-- Descending comparison on skins by `base_price`. -/
def priceGe (a b : Skin) : Prop := b.base_price ≤ a.base_price

instance : DecidableRel priceLe :=
  fun a b => inferInstanceAs (Decidable (a.base_price ≤ b.base_price))

instance : DecidableRel priceGe :=
  fun a b => inferInstanceAs (Decidable (b.base_price ≤ a.base_price))

instance : IsTotal Skin priceLe := ⟨fun a b => le_total a.base_price b.base_price⟩

instance : IsTrans Skin priceLe := ⟨fun _ _ _ h h' => le_trans h h'⟩

instance : IsTotal Skin priceGe := ⟨fun a b => le_total b.base_price a.base_price⟩

instance : IsTrans Skin priceGe := ⟨fun _ _ _ h h' => le_trans h' h⟩

/-- Whether `needle` starts the list `hay`. -/
def startsWithSeq : List Char → List Char → Bool
  | [], _ => true
  | _ :: _, [] => false
  | a :: as, b :: bs => a == b && startsWithSeq as bs

/-- Whether `needle` occurs contiguously inside `hay`. -/
def containsSeq (needle : List Char) : List Char → Bool
  | [] => needle.isEmpty
  | c :: t => startsWithSeq needle (c :: t) || containsSeq needle t

/-- Case-insensitive substring match, the semantics of the PostgREST
`ilike("name", "%pat%")` filter used by the filtered skin listing. -/
def ilikeSub (pat s : String) : Bool :=
  containsSeq pat.toLower.toList s.toLower.toList

/-- Row filter of the filtered skin query (skin_manager.py:104-114):
`base_price` within `[min_price, max_price]`, `available = true`, and the
optional case-insensitive name substring (skipped when `name_contains` is
`None` or empty, the Python truthiness test `if name_contains`). -/
def filteredSkinPred (min_price max_price : ℚ) (name_contains : Option String)
    (sk : Skin) : Bool :=
  decide (min_price ≤ sk.base_price) && decide (sk.base_price ≤ max_price) &&
    sk.available &&
    (match name_contains with
     | none => true
     | some p => if p = "" then true else ilikeSub p sk.name)

/-- Embeds `SkinManager.get_filtered_skins` (skin_manager.py:63-125):
validate `order`, the price range, `limit` and `offset` in that sequence,
then issue one filtered, ordered, paginated select.  The store evaluates
the query per the adapter contract: filter the rows, sort them by
`base_price` in the requested direction, and return the requested page. -/
def get_filtered_skins (fail : StoreCall → Bool) (s : Store)
    (min_price max_price : ℚ) (order : String) (name_contains : Option String)
    (limit offset : Int) : RunResult (List Skin) :=
  if order ≠ "asc" ∧ order ≠ "desc" then ⟨.error (.invalidOrder order), s, []⟩
  else if max_price < min_price then ⟨.error .invalidPriceRange, s, []⟩
  else if limit ≤ 0 then ⟨.error .invalidLimit, s, []⟩
  else if offset < 0 then ⟨.error .invalidOffset, s, []⟩
  else
    let filtered := s.skins_reference.filter (filteredSkinPred min_price max_price name_contains)
    let sorted := if order = "desc" then filtered.insertionSort priceGe
      else filtered.insertionSort priceLe
    let call := StoreCall.selectFilteredSkins min_price max_price order name_contains offset limit
    if fail call then ⟨.error .storeError, s, [call]⟩
    else ⟨.ok ((sorted.drop offset.toNat).take limit.toNat), s, [call]⟩

/-- Lookup with default, the semantics of `probabilities.get(name, 0.0)` on
the probability dictionary (modelled as an association list with distinct
keys). -/
def probGet (probs : List (String × ℚ)) (k : String) : ℚ :=
  (probs.lookup k).getD 0

/-- The strict probability-sum tolerance `1e-20` of
lootbox_manager.py:295, as an exact rational. -/
def probEps : ℚ := 1 / 10 ^ 20

/-- Number of `lootbox_skins` rows matched by
`.eq("lootbox_id", lid).eq("skin_id", sid)` — the row count a drop-rate
update reports back. -/
def matchCount (s : Store) (lid : Nat) (sid : String) : Nat :=
  s.lootbox_skins.countP (fun e => e.lootbox_id == lid && e.skin_id == sid)

/-- Effect of a drop-rate update on one edge row. -/
def updEdge (lid : Nat) (sid : String) (r : ℚ) (e : LootboxSkin) : LootboxSkin :=
  if e.lootbox_id = lid ∧ e.skin_id = sid then { e with drop_rate := r } else e

/-- Effect on the store of the drop-rate update
`.table("lootbox_skins").update({"drop_rate": r}).eq("lootbox_id", lid).eq("skin_id", sid)`. -/
def applyDropRate (s : Store) (lid : Nat) (sid : String) (r : ℚ) : Store :=
  { s with lootbox_skins := s.lootbox_skins.map (updEdge lid sid r) }

/-- Effect of the base-price update on one lootbox row. -/
def updLootboxPrice (name : String) (p : ℚ) (lb : LootboxRef) : LootboxRef :=
  if lb.name = name then { lb with base_price := some p } else lb

/-- Effect on the store of
`.table("lootbox_reference").update({"base_price": p}).eq("name", name)`. -/
def applyBasePrice (s : Store) (name : String) (p : ℚ) : Store :=
  { s with lootbox_reference := s.lootbox_reference.map (updLootboxPrice name p) }

/-- Embeds the per-member drop-rate write loop of
`LootboxManager.update_probabilities` (lootbox_manager.py:322-337): for
each member skin, in contents order, write its assigned probability as the
edge's `drop_rate`; a write that fails (oracle) or matches no row aborts
the loop, leaving every earlier write in place. -/
def writeDropRates (fail : StoreCall → Bool) (st : Store) (lid : Nat)
    (probs : List (String × ℚ)) : List Skin → RunResult Unit
  | [] => ⟨.ok (), st, []⟩
  | sk :: rest =>
    let call := StoreCall.updateDropRate lid sk.id
    if fail call then ⟨.error (.dropRateUpdateFailed sk.name), st, [call]⟩
    else if matchCount st lid sk.id = 0 then
      ⟨.error (.dropRateUpdateFailed sk.name), st, [call]⟩
    else
      let st' := applyDropRate st lid sk.id (probGet probs sk.name)
      let w := writeDropRates fail st' lid probs rest
      ⟨w.res, w.store, call :: w.calls⟩

/-- Embeds `LootboxManager.update_probabilities`
(lootbox_manager.py:267-340), the set-probabilities operation: load the
contents, reject an empty lootbox, a mapping whose size differs from the
number of distinct member names, a key that is not a member name, or a
probability sum outside the strict tolerance; then compute
`expected_value × 1.2`, commit it as the lootbox's `base_price`, re-resolve
the lootbox id, and write each member's drop rate in turn. -/
def update_probabilities (fail : StoreCall → Bool) (s : Store) (name : String)
    (probs : List (String × ℚ)) : RunResult Unit :=
  match get_lootbox_contents s name with
  | .error e => ⟨.error e, s, []⟩
  | .ok contents =>
    if contents = [] then ⟨.error (.lootboxEmpty name), s, []⟩
    else if probs.length ≠ ((contents.map (fun sk => sk.name)).dedup).length then
      ⟨.error .wrongSkinCount, s, []⟩
    else
      match (probs.map Prod.fst).find?
          (fun k => !((contents.map (fun sk => sk.name)).contains k)) with
      | some k => ⟨.error (.skinNotInLootbox k), s, []⟩
      | none =>
        if ¬ |(probs.map Prod.snd).sum - 1| < probEps then
          ⟨.error .probSumInvalid, s, []⟩
        else
          let adjusted :=
            ((contents.map (fun sk => sk.base_price * probGet probs sk.name)).sum) * (6 / 5)
          let call := StoreCall.updateBasePrice name
          if fail call then ⟨.error .basePriceUpdateFailed, s, [call]⟩
          else if s.lootbox_reference.countP (fun lb => lb.name == name) = 0 then
            ⟨.error .basePriceUpdateFailed, s, [call]⟩
          else
            let s1 := applyBasePrice s name adjusted
            match get_lootbox_id_by_name s1 name with
            | none => ⟨.error (.lootboxNotFound name), s1, [call]⟩
            | some lid =>
              if lid = 0 then ⟨.error (.lootboxNotFound name), s1, [call]⟩
              else
                let w := writeDropRates fail s1 lid probs contents
                ⟨w.res, w.store, call :: w.calls⟩

/-- Concrete skin fixture A (price 10). -/
def skinA : Skin := ⟨"a", "A", 10, true⟩

/-- Concrete skin fixture B (price 20). -/
def skinB : Skin := ⟨"b", "B", 20, true⟩

/-- Concrete skin fixture C (price 5, not currently a member anywhere). -/
def skinC : Skin := ⟨"c", "C", 5, true⟩

/-- Concrete unavailable skin fixture (price 50). -/
def skinU : Skin := ⟨"u", "U", 50, false⟩

/-- Concrete store fixture: skins A, B, C and U, one lootbox L (id 1) whose
members are A and B with drop rate 0. -/
def demoStore : Store :=
  ⟨[skinA, skinB, skinC, skinU],
   [⟨1, "L", "a lootbox", none⟩],
   [⟨1, "a", 0⟩, ⟨1, "b", 0⟩]⟩

/-- Oracle that never signals a store failure. -/
def noFail : StoreCall → Bool := fun _ => false

/-- Oracle failing exactly the drop-rate write of skin B in lootbox 1. -/
def failDropB : StoreCall → Bool := fun c => decide (c = StoreCall.updateDropRate 1 "b")

/-- C7: `remove` (`delete`) called with a name for which no lootbox exists
fails with the not-found error and issues no store call at all — in
particular no delete against `lootbox_skins` or `lootbox_reference`. -/
theorem C7_delete_nonexistent_issues_no_deletes
    (fail : StoreCall → Bool) (s : Store) (name : String)
    (h : get_lootbox_id_by_name s name = none) :
    (delete fail s name).res = .error (.lootboxNotFound name) ∧
    (delete fail s name).store = s ∧
    (delete fail s name).calls = [] := by
  simp [delete, h]

/-- Witness for C7 at a concrete store containing one lootbox named L and
one edge, queried with the absent name M. -/
theorem C7_delete_nonexistent_issues_no_deletes_witness :
    (delete (fun _ => false)
        ⟨[⟨"a", "A", 10, true⟩], [⟨1, "L", "d", none⟩], [⟨1, "a", 0⟩]⟩
        "M").res = .error (.lootboxNotFound "M") ∧
    (delete (fun _ => false)
        ⟨[⟨"a", "A", 10, true⟩], [⟨1, "L", "d", none⟩], [⟨1, "a", 0⟩]⟩
        "M").store = ⟨[⟨"a", "A", 10, true⟩], [⟨1, "L", "d", none⟩], [⟨1, "a", 0⟩]⟩ ∧
    (delete (fun _ => false)
        ⟨[⟨"a", "A", 10, true⟩], [⟨1, "L", "d", none⟩], [⟨1, "a", 0⟩]⟩
        "M").calls = [] :=
  C7_delete_nonexistent_issues_no_deletes (fun _ => false) _ "M" (by decide)

/-- Every element of a list of naturals is bounded by its `foldr max 0`. -/
theorem le_foldr_max {x : Nat} : ∀ {l : List Nat}, x ∈ l → x ≤ l.foldr max 0 := by
  intro l h
  induction l with
  | nil => cases h
  | cons a t ih =>
    rcases List.mem_cons.mp h with rfl | h'
    · exact le_max_left _ _
    · exact le_trans (ih h') (le_max_right _ _)

/-- Frame property of `update`: whatever the oracle and the arguments, the
skins table and the lootbox table are untouched, the edge table only grows
by a suffix of new rows, and every issued call is an edge insert. -/
theorem update_frame (fail : StoreCall → Bool) (s : Store) (name : String)
    (ns : List String) :
    (update fail s name ns).store.skins_reference = s.skins_reference ∧
    (update fail s name ns).store.lootbox_reference = s.lootbox_reference ∧
    (∃ new, (update fail s name ns).store.lootbox_skins = s.lootbox_skins ++ new) ∧
    ∀ c ∈ (update fail s name ns).calls, ∃ rows, c = StoreCall.insertLootboxSkins rows := by
  unfold update
  repeat' split
  all_goals try simp
  all_goals split_ifs
  all_goals try simp
  all_goals split
  all_goals simp

/-- C10: `add_skins` (`update`) never modifies the lootbox's `base_price`,
any pre-existing edge's `drop_rate`, or any skin record; in every run —
successful or failed — the skins and lootbox tables are unchanged, the edge
table is only extended by newly inserted edges, and every store write
issued is an insert of `lootbox_skins` rows. -/
theorem C10_update_only_inserts_edges (fail : StoreCall → Bool) (s : Store)
    (name : String) (ns : List String) :
    (update fail s name ns).store.skins_reference = s.skins_reference ∧
    (update fail s name ns).store.lootbox_reference = s.lootbox_reference ∧
    (∃ new, (update fail s name ns).store.lootbox_skins = s.lootbox_skins ++ new) ∧
    ∀ c ∈ (update fail s name ns).calls, ∃ rows, c = StoreCall.insertLootboxSkins rows :=
  update_frame fail s name ns

/-- C4: `add_skins` is idempotent per skin — when the named skin is already
a member of the lootbox, the call classifies it as a duplicate, stages
nothing, issues no insert, and leaves the store (hence the member count)
unchanged. -/
theorem C4_add_skins_idempotent_per_skin (fail : StoreCall → Bool) (s : Store)
    (name S : String) (lid : Nat) (sk : Skin)
    (hlid : get_lootbox_id_by_name s name = some lid) (h0 : lid ≠ 0)
    (hsk : get_skin_by_name s S = some sk) (hid : sk.id ≠ "")
    (hmem : sk.id ∈ existingSkinIds s lid) :
    (classifySkins s lid (existingSkinIds s lid) [S]).2.1 = [S] ∧
    (update fail s name [S]).store = s ∧
    (update fail s name [S]).calls = [] ∧
    (lootboxEdges ((update fail s name [S]).store) lid).length =
      (lootboxEdges s lid).length := by
  have hc : classifySkins s lid (existingSkinIds s lid) [S] = ([], [S], []) := by
    simp [classifySkins, hsk, hid, hmem]
  have hrun : (update fail s name [S]).store = s ∧ (update fail s name [S]).calls = [] := by
    unfold update
    rw [hlid]
    simp only [h0, if_false, hc]
    split
    · constructor <;> (split <;> rfl)
    · simp_all
  exact ⟨by rw [hc], hrun.1, hrun.2, by rw [hrun.1]⟩

/-- Witness for C4: adding A to L a second time (A is already a member of
the demo store) classifies it as a duplicate and changes nothing. -/
theorem C4_add_skins_idempotent_per_skin_witness :
    (classifySkins demoStore 1 (existingSkinIds demoStore 1) ["A"]).2.1 = ["A"] ∧
    (update noFail demoStore "L" ["A"]).store = demoStore ∧
    (update noFail demoStore "L" ["A"]).calls = [] ∧
    (lootboxEdges ((update noFail demoStore "L" ["A"]).store) 1).length =
      (lootboxEdges demoStore 1).length :=
  C4_add_skins_idempotent_per_skin noFail demoStore "L" "A" 1 skinA
    (by decide) (by decide) (by decide) (by decide) (by decide)

/-- C8 (amended): `get_all_lootbox` and `get_filtered_skins` reject a
non-positive `limit` or a negative `offset` with an invalid-argument error
before issuing any remote call; `get_all_skins` performs no such
validation (see the counterexample). -/
theorem C8_listing_limit_offset_validation (fail : StoreCall → Bool) (s : Store)
    (limit offset : Int) (min_price max_price : ℚ) (order : String)
    (nc : Option String) (h : limit ≤ 0 ∨ offset < 0) :
    (∃ e, (get_all_lootbox fail s limit offset).res = .error e ∧
      e.isInvalidArgument = true) ∧
    (get_all_lootbox fail s limit offset).calls = [] ∧
    (∃ e, (get_filtered_skins fail s min_price max_price order nc limit offset).res =
      .error e ∧ e.isInvalidArgument = true) ∧
    (get_filtered_skins fail s min_price max_price order nc limit offset).calls = [] := by
  have hno : ¬ (0 < limit ∧ 0 ≤ offset) := by
    rcases h with h | h <;> omega
  refine ⟨?_, ?_, ?_, ?_⟩ <;>
    first
      | (unfold get_all_lootbox; split_ifs <;> simp_all [Err.isInvalidArgument])
      | (unfold get_filtered_skins; split_ifs <;> simp_all [Err.isInvalidArgument])

/-- Counterexample for C8 as stated: `get_all_skins` with `limit = 0` is
not rejected — it issues the remote range select and returns an empty
page instead of an invalid-argument error. -/
theorem C8_get_all_skins_no_validation_counterexample :
    (get_all_skins noFail demoStore 0 0).calls = [StoreCall.selectSkinsRange 0 0] ∧
    (get_all_skins noFail demoStore 0 0).calls ≠ [] ∧
    ∀ e, (get_all_skins noFail demoStore 0 0).res ≠ .error e := by
  refine ⟨rfl, by simp [get_all_skins, noFail], ?_⟩
  intro e
  simp [get_all_skins, noFail]

/-- Witness for C8 (amended) at `limit = 0`, `offset = 0` on the demo
store. -/
theorem C8_listing_limit_offset_validation_witness :
    (∃ e, (get_all_lootbox noFail demoStore 0 0).res = .error e ∧
      e.isInvalidArgument = true) ∧
    (get_all_lootbox noFail demoStore 0 0).calls = [] ∧
    (∃ e, (get_filtered_skins noFail demoStore 2 1000 "asc" none 0 0).res =
      .error e ∧ e.isInvalidArgument = true) ∧
    (get_filtered_skins noFail demoStore 2 1000 "asc" none 0 0).calls = [] :=
  C8_listing_limit_offset_validation noFail demoStore 0 0 2 1000 "asc" none
    (Or.inl (by decide))

/-- C6: `get_contents` on an existing lootbox returns the resolved skin
records of its membership edges, silently dropping unresolvable edges (the
`filterMap`); with no membership edges it returns the empty list rather
than failing — in particular on a lootbox just created into a store whose
edges all reference existing lootboxes. -/
theorem C6_get_contents_resolves_and_tolerates
    (fail : StoreCall → Bool) (s s₂ : Store) (name desc : String) (lid : Nat) :
    (get_lootbox_id_by_name s name = some lid → lid ≠ 0 →
      get_lootbox_contents s name =
        .ok ((lootboxEdges s lid).filterMap (fun e => get_skin_by_id s e.skin_id)) ∧
      (lootboxEdges s lid = [] → get_lootbox_contents s name = .ok [])) ∧
    ((∀ e ∈ s₂.lootbox_skins, ∃ lb ∈ s₂.lootbox_reference, e.lootbox_id = lb.lootbox_id) →
      (create fail s₂ name desc).res = .ok () →
      get_lootbox_contents ((create fail s₂ name desc).store) name = .ok []) := by
  constructor
  · intro hlid h0
    refine ⟨by simp [get_lootbox_contents, hlid, h0], fun he => ?_⟩
    simp [get_lootbox_contents, hlid, h0, he]
  · intro hfk hok
    unfold create at hok ⊢
    split_ifs at hok ⊢ with h1 h2
    dsimp only at hok ⊢
    by_cases hf : fail (StoreCall.insertLootboxRef name desc) = true
    · rw [if_pos hf] at hok
      simp at hok
    · rw [if_neg hf]
      have hnone : s₂.lootbox_reference.find? (fun lb => lb.name == name) = none := by
        refine List.find?_eq_none.mpr fun lb hm => ?_
        have := List.filter_eq_nil_iff.mp (not_not.mp h2) lb hm
        simpa using this
      have hlook :
          get_lootbox_id_by_name
            { s₂ with lootbox_reference :=
                s₂.lootbox_reference ++ [⟨nextLootboxId s₂, name, desc, none⟩] } name =
            some (nextLootboxId s₂) := by
        simp [get_lootbox_id_by_name, List.find?_append, hnone]
      have hedges :
          lootboxEdges
            { s₂ with lootbox_reference :=
                s₂.lootbox_reference ++ [⟨nextLootboxId s₂, name, desc, none⟩] }
            (nextLootboxId s₂) = [] := by
        refine List.filter_eq_nil_iff.mpr fun e hm => ?_
        obtain ⟨lb, hlb, hid⟩ := hfk e hm
        have hle : lb.lootbox_id ≤ (s₂.lootbox_reference.map
            (fun r => r.lootbox_id)).foldr max 0 :=
          le_foldr_max (List.mem_map_of_mem _ hlb)
        have : e.lootbox_id ≠ nextLootboxId s₂ := by
          rw [hid]
          unfold nextLootboxId
          omega
        simpa using this
      have h0 : nextLootboxId s₂ ≠ 0 := Nat.succ_ne_zero _
      simp [get_lootbox_contents, hlook, h0, hedges]

/-- Witness for C6: on the demo store the contents of L resolve its two
edges to A and B; and creating M into the demo store then reading its
contents yields the empty list. -/
theorem C6_get_contents_resolves_and_tolerates_witness :
    get_lootbox_contents demoStore "L" =
      .ok ((lootboxEdges demoStore 1).filterMap
        (fun e => get_skin_by_id demoStore e.skin_id)) ∧
    get_lootbox_contents ((create noFail demoStore "M" "d").store) "M" = .ok [] :=
  ⟨((C6_get_contents_resolves_and_tolerates noFail demoStore demoStore "L" "d" 1).1
      (by decide) (by decide)).1,
   (C6_get_contents_resolves_and_tolerates noFail demoStore demoStore "M" "d" 1).2
      (by decide) (by rfl)⟩

/-- Every edge staged by the classification loop carries `drop_rate = 0`. -/
theorem classify_drop_rate_zero (s : Store) (lid : Nat) (ex : List String) :
    ∀ ns, ∀ e ∈ (classifySkins s lid ex ns).1, e.drop_rate = 0 := by
  intro ns
  induction ns with
  | nil => simp [classifySkins]
  | cons n rest ih =>
    intro e he
    simp only [classifySkins] at he
    cases hsk : get_skin_by_name s n with
    | none =>
      rw [hsk] at he
      exact ih e he
    | some sk =>
      rw [hsk] at he
      dsimp only at he
      by_cases h1 : sk.id = ""
      · rw [if_pos h1] at he
        exact ih e he
      · rw [if_neg h1] at he
        by_cases h2 : ex.contains sk.id = true
        · rw [if_pos h2] at he
          exact ih e he
        · rw [if_neg h2] at he
          rcases List.mem_cons.mp he with rfl | h'
          · rfl
          · exact ih e h'

/-- A successful `update` run returns exactly the contents of its final
store, read back through `get_lootbox_contents`. -/
theorem update_ok_returns_contents (fail : StoreCall → Bool) (s : Store)
    (name : String) (ns : List String) (lid : Nat)
    (hlid : get_lootbox_id_by_name s name = some lid) (h0 : lid ≠ 0)
    (l : List Skin) (hres : (update fail s name ns).res = .ok l) :
    get_lootbox_contents ((update fail s name ns).store) name = .ok l := by
  unfold update at hres ⊢
  rw [hlid] at hres ⊢
  simp only [h0, if_false] at hres ⊢
  try dsimp only at hres ⊢
  by_cases hadds : (classifySkins s lid (existingSkinIds s lid) ns).1 = []
  · rw [if_pos hadds] at hres ⊢
    cases hc : get_lootbox_contents s name with
    | error e =>
      rw [hc] at hres
      simp at hres
    | ok l' =>
      rw [hc] at hres ⊢
      exact hres
  · rw [if_neg hadds] at hres ⊢
    by_cases hf : fail (StoreCall.insertLootboxSkins
        (classifySkins s lid (existingSkinIds s lid) ns).1) = true
    · rw [if_pos hf] at hres
      simp at hres
    · rw [if_neg hf] at hres ⊢
      cases hc : get_lootbox_contents
          { s with lootbox_skins :=
              s.lootbox_skins ++ (classifySkins s lid (existingSkinIds s lid) ns).1 }
          name with
      | error e =>
        rw [hc] at hres
        simp at hres
      | ok l' =>
        rw [hc] at hres ⊢
        exact hres

/-- Successful contents reads are the tolerant join over the edges. -/
theorem contents_ok_eq (s : Store) (name : String) (lid : Nat) (l : List Skin)
    (hlid : get_lootbox_id_by_name s name = some lid) (h0 : lid ≠ 0)
    (h : get_lootbox_contents s name = .ok l) :
    l = (lootboxEdges s lid).filterMap (fun e => get_skin_by_id s e.skin_id) := by
  unfold get_lootbox_contents at h
  rw [hlid] at h
  simp only [h0, if_false] at h
  exact (Except.ok.inj h).symm

/-- C5: in `add_skins`, every staged edge is created with `drop_rate = 0`;
when nothing is staged no insert call is issued and the operation still
succeeds; and a successful run returns the full current contents of the
lootbox — in particular every pre-existing resolvable member appears in
the returned list, not just the newly added ones. -/
theorem C5_add_skins_staging_and_full_return (fail : StoreCall → Bool)
    (s : Store) (name : String) (ns : List String) (lid : Nat)
    (hlid : get_lootbox_id_by_name s name = some lid) (h0 : lid ≠ 0) :
    (∀ ex ns2, ∀ e ∈ (classifySkins s lid ex ns2).1, e.drop_rate = 0) ∧
    ((classifySkins s lid (existingSkinIds s lid) ns).1 = [] →
      (update fail s name ns).calls = [] ∧
      ∃ l, (update fail s name ns).res = .ok l) ∧
    (∀ l, (update fail s name ns).res = .ok l →
      get_lootbox_contents ((update fail s name ns).store) name = .ok l ∧
      ∀ e ∈ lootboxEdges s lid, ∀ sk, get_skin_by_id s e.skin_id = some sk →
        sk ∈ l) := by
  refine ⟨fun ex ns2 => classify_drop_rate_zero s lid ex ns2, ?_, ?_⟩
  · intro hadds
    have hc : get_lootbox_contents s name =
        .ok ((lootboxEdges s lid).filterMap (fun e => get_skin_by_id s e.skin_id)) := by
      simp [get_lootbox_contents, hlid, h0]
    have hrun : update fail s name ns =
        ⟨.ok ((lootboxEdges s lid).filterMap (fun e => get_skin_by_id s e.skin_id)),
         s, []⟩ := by
      unfold update
      rw [hlid]
      simp only [h0, if_false]
      try dsimp only
      rw [if_pos hadds, hc]
    exact ⟨by rw [hrun], _, by rw [hrun]⟩
  · intro l hres
    obtain ⟨hskins, hrefs, ⟨new, hedges⟩, -⟩ := update_frame fail s name ns
    have hlid' : get_lootbox_id_by_name (update fail s name ns).store name = some lid := by
      unfold get_lootbox_id_by_name at hlid ⊢
      rw [hrefs]
      exact hlid
    have hcont := update_ok_returns_contents fail s name ns lid hlid h0 l hres
    refine ⟨hcont, ?_⟩
    intro e he sk hsk
    have hl := contents_ok_eq _ name lid l hlid' h0 hcont
    rw [hl]
    refine List.mem_filterMap.mpr ⟨e, ?_, ?_⟩
    · unfold lootboxEdges at he ⊢
      rw [hedges, List.filter_append]
      exact List.mem_append_left _ he
    · unfold get_skin_by_id at hsk ⊢
      rw [hskins]
      exact hsk

/-- Witness for C5: adding C to the demo lootbox succeeds and the returned
list still contains the pre-existing member A. -/
theorem C5_add_skins_staging_and_full_return_witness :
    ((classifySkins demoStore 1 (existingSkinIds demoStore 1) ["A", "B"]).1 = [] →
      (update noFail demoStore "L" ["A", "B"]).calls = [] ∧
      ∃ l, (update noFail demoStore "L" ["A", "B"]).res = .ok l) ∧
    ((update noFail demoStore "L" ["A", "B"]).res = .ok [skinA, skinB] →
      get_lootbox_contents ((update noFail demoStore "L" ["A", "B"]).store) "L" =
        .ok [skinA, skinB] ∧
      ∀ e ∈ lootboxEdges demoStore 1, ∀ sk,
        get_skin_by_id demoStore e.skin_id = some sk → sk ∈ [skinA, skinB]) :=
  ⟨(C5_add_skins_staging_and_full_return noFail demoStore "L" ["A", "B"] 1
      (by decide) (by decide)).2.1,
   (C5_add_skins_staging_and_full_return noFail demoStore "L" ["A", "B"] 1
      (by decide) (by decide)).2.2 [skinA, skinB]⟩

/-- C2: `set_probabilities` fails without performing any store write when
the lootbox has no members, when the mapping size differs from the member
count, when a mapping key is not a member name, or when the probability
sum is not within the strict `1e-20` tolerance of 1. -/
theorem C2_set_probabilities_precondition_failures (fail : StoreCall → Bool)
    (s : Store) (name : String) (probs : List (String × ℚ)) (contents : List Skin)
    (hcont : get_lootbox_contents s name = .ok contents)
    (hnodup : (contents.map (fun sk => sk.name)).Nodup)
    (h : contents = [] ∨ probs.length ≠ contents.length ∨
      (∃ k ∈ probs.map Prod.fst, k ∉ contents.map (fun sk => sk.name)) ∨
      ¬ |(probs.map Prod.snd).sum - 1| < probEps) :
    (∃ e, (update_probabilities fail s name probs).res = .error e) ∧
    (update_probabilities fail s name probs).store = s ∧
    (update_probabilities fail s name probs).calls = [] := by
  have hded : (contents.map (fun sk => sk.name)).dedup = contents.map (fun sk => sk.name) :=
    List.dedup_eq_self.mpr hnodup
  unfold update_probabilities
  rw [hcont]
  dsimp only
  by_cases hc0 : contents = []
  · rw [if_pos hc0]
    exact ⟨⟨_, rfl⟩, rfl, rfl⟩
  · rw [if_neg hc0]
    by_cases hlen : probs.length ≠ ((contents.map (fun sk => sk.name)).dedup).length
    · rw [if_pos hlen]
      exact ⟨⟨_, rfl⟩, rfl, rfl⟩
    · rw [if_neg hlen]
      have hlen' : probs.length = contents.length := by
        have := not_not.mp hlen
        rw [hded, List.length_map] at this
        exact this
      cases hfind : (probs.map Prod.fst).find?
          (fun k => !((contents.map (fun sk => sk.name)).contains k)) with
      | some k =>
        exact ⟨⟨_, rfl⟩, rfl, rfl⟩
      | none =>
        dsimp only
        by_cases hsum : ¬ |(probs.map Prod.snd).sum - 1| < probEps
        · rw [if_pos hsum]
          exact ⟨⟨_, rfl⟩, rfl, rfl⟩
        · exfalso
          have hall : ∀ k ∈ probs.map Prod.fst,
              k ∈ contents.map (fun sk => sk.name) := by
            intro k hk
            have := List.find?_eq_none.mp hfind k hk
            simpa using this
          rcases h with h | h | ⟨k, hk, hnk⟩ | h
          · exact hc0 h
          · exact h hlen'
          · exact hnk (hall k hk)
          · exact hsum h

/-- Witness for C2: a single-entry mapping against the two-member demo
lootbox is rejected with no store write. -/
theorem C2_set_probabilities_precondition_failures_witness :
    (∃ e, (update_probabilities noFail demoStore "L"
        [("A", 1 / 2)]).res = .error e) ∧
    (update_probabilities noFail demoStore "L"
        [("A", 1 / 2)]).store = demoStore ∧
    (update_probabilities noFail demoStore "L"
        [("A", 1 / 2)]).calls = [] :=
  C2_set_probabilities_precondition_failures noFail demoStore "L"
    [("A", 1 / 2)] [skinA, skinB] (by rfl) (by decide)
    (Or.inr (Or.inl (by decide)))

/-- C9: for every valid combination of price range, order and pagination,
the filtered skin listing returns only available skins priced within the
inclusive range, sorted monotonically by `base_price` in the requested
direction; a reversed price range or an unknown order is rejected with an
invalid-argument error before any remote call. -/
theorem C9_filtered_skins_range_and_order (s : Store)
    (min_price max_price : ℚ) (order : String) (nc : Option String)
    (limit offset : Int) :
    ((order = "asc" ∨ order = "desc") → min_price ≤ max_price →
      0 < limit → 0 ≤ offset →
      ∃ l, (get_filtered_skins noFail s min_price max_price order nc limit offset).res =
          .ok l ∧
        (∀ sk ∈ l, sk.available = true ∧ min_price ≤ sk.base_price ∧
          sk.base_price ≤ max_price) ∧
        (order = "asc" → List.Sorted priceLe l) ∧
        (order = "desc" → List.Sorted priceGe l)) ∧
    ((max_price < min_price ∨ (order ≠ "asc" ∧ order ≠ "desc")) →
      ∃ e, (get_filtered_skins noFail s min_price max_price order nc limit offset).res =
          .error e ∧
        e.isInvalidArgument = true ∧
        (get_filtered_skins noFail s min_price max_price order nc limit offset).calls = []) := by
  constructor
  · intro horder hrange hlim hoff
    have hC : ¬ (order ≠ "asc" ∧ order ≠ "desc") := by
      rcases horder with h | h <;> simp [h]
    unfold get_filtered_skins
    rw [if_neg hC, if_neg (not_lt.mpr hrange), if_neg (not_le.mpr hlim),
      if_neg (not_lt.mpr hoff)]
    dsimp only
    rw [if_neg (by simp [noFail])]
    refine ⟨_, rfl, ?_, ?_, ?_⟩
    · intro sk hsk
      have hmem : sk ∈ s.skins_reference.filter
          (filteredSkinPred min_price max_price nc) := by
        have h1 := List.mem_of_mem_drop (List.mem_of_mem_take hsk)
        by_cases hd : order = "desc"
        · rw [if_pos hd] at h1
          exact (List.mem_insertionSort priceGe).mp h1
        · rw [if_neg hd] at h1
          exact (List.mem_insertionSort priceLe).mp h1
      have hp := (List.mem_filter.mp hmem).2
      unfold filteredSkinPred at hp
      simp only [Bool.and_eq_true, decide_eq_true_eq] at hp
      exact ⟨hp.1.2, hp.1.1.1, hp.1.1.2⟩
    · intro ha
      have hd : ¬ order = "desc" := by simp [ha]
      rw [if_neg hd]
      have hs : List.Sorted priceLe
          ((s.skins_reference.filter
            (filteredSkinPred min_price max_price nc)).insertionSort priceLe) :=
        List.sorted_insertionSort priceLe _
      exact hs.sublist ((List.take_sublist _ _).trans (List.drop_sublist _ _))
    · intro hd
      rw [if_pos hd]
      have hs : List.Sorted priceGe
          ((s.skins_reference.filter
            (filteredSkinPred min_price max_price nc)).insertionSort priceGe) :=
        List.sorted_insertionSort priceGe _
      exact hs.sublist ((List.take_sublist _ _).trans (List.drop_sublist _ _))
  · intro h
    by_cases hC : order ≠ "asc" ∧ order ≠ "desc"
    · unfold get_filtered_skins
      rw [if_pos hC]
      exact ⟨_, rfl, rfl, rfl⟩
    · have hmm : max_price < min_price := by
        rcases h with h | h
        · exact h
        · exact absurd h hC
      unfold get_filtered_skins
      rw [if_neg hC, if_pos hmm]
      exact ⟨_, rfl, rfl, rfl⟩

/-- Witness for C9: the default query on the demo store succeeds with the
stated guarantees, and an unknown order string is rejected. -/
theorem C9_filtered_skins_range_and_order_witness :
    (∃ l, (get_filtered_skins noFail demoStore 2 1000 "asc" none 50 0).res = .ok l ∧
      (∀ sk ∈ l, sk.available = true ∧ (2:ℚ) ≤ sk.base_price ∧
        sk.base_price ≤ (1000:ℚ)) ∧
      ("asc" = "asc" → List.Sorted priceLe l) ∧
      ("asc" = "desc" → List.Sorted priceGe l)) ∧
    (∃ e, (get_filtered_skins noFail demoStore 2 1000 "up" none 50 0).res = .error e ∧
      e.isInvalidArgument = true ∧
      (get_filtered_skins noFail demoStore 2 1000 "up" none 50 0).calls = []) :=
  ⟨(C9_filtered_skins_range_and_order demoStore 2 1000 "asc" none 50 0).1
      (Or.inl rfl) (by decide) (by decide) (by decide),
   (C9_filtered_skins_range_and_order demoStore 2 1000 "up" none 50 0).2
      (Or.inr (by decide))⟩

/-- A failed contents read always reports the lootbox as not found. -/
theorem contents_error_shape (s : Store) (name : String) (e : Err)
    (h : get_lootbox_contents s name = .error e) : e = .lootboxNotFound name := by
  unfold get_lootbox_contents at h
  cases hl : get_lootbox_id_by_name s name with
  | none =>
    rw [hl] at h
    exact (Except.error.inj h).symm
  | some lid =>
    rw [hl] at h
    dsimp only at h
    by_cases h0 : lid = 0
    · rw [if_pos h0] at h
      exact (Except.error.inj h).symm
    · rw [if_neg h0] at h
      cases h

/-- Drop-rate writes leave the lootbox table untouched. -/
theorem foldl_applyDropRate_refs (lid : Nat) (probs : List (String × ℚ)) :
    ∀ (pre : List Skin) (st : Store),
      (pre.foldl (fun t k => applyDropRate t lid k.id (probGet probs k.name))
        st).lootbox_reference = st.lootbox_reference := by
  intro pre
  induction pre with
  | nil => intro st; rfl
  | cons k rest ih =>
    intro st
    rw [List.foldl_cons, ih]
    rfl

/-- After the base-price update, every lootbox row bearing the target name
carries the new price. -/
theorem applyBasePrice_mem (s : Store) (name : String) (p : ℚ) (lb : LootboxRef)
    (hm : lb ∈ (applyBasePrice s name p).lootbox_reference) (hn : lb.name = name) :
    lb.base_price = some p := by
  unfold applyBasePrice at hm
  obtain ⟨lb₀,-, hlb⟩ := List.mem_map.mp hm
  unfold updLootboxPrice at hlb
  by_cases h : lb₀.name = name
  · rw [if_pos h] at hlb
    rw [← hlb]
  · rw [if_neg h] at hlb
    rw [← hlb] at hn
    exact absurd hn h

/-- An erroring drop-rate write loop fails on some member, commits exactly
the writes of the preceding members, and rolls nothing back. -/
theorem writeDropRates_error (fail : StoreCall → Bool) (lid : Nat)
    (probs : List (String × ℚ)) (sn : String) :
    ∀ (l : List Skin) (st : Store),
      (writeDropRates fail st lid probs l).res = .error (.dropRateUpdateFailed sn) →
      ∃ pre sk suf, l = pre ++ sk :: suf ∧ sk.name = sn ∧
        (writeDropRates fail st lid probs l).store =
          pre.foldl (fun t k => applyDropRate t lid k.id (probGet probs k.name)) st := by
  intro l
  induction l with
  | nil =>
    intro st h
    simp [writeDropRates] at h
  | cons sk rest ih =>
    intro st h
    unfold writeDropRates at h ⊢
    by_cases hf : fail (StoreCall.updateDropRate lid sk.id) = true
    · rw [if_pos hf] at h ⊢
      exact ⟨[], sk, rest, rfl,
        Err.dropRateUpdateFailed.inj (Except.error.inj h), rfl⟩
    · rw [if_neg hf] at h ⊢
      by_cases hm : matchCount st lid sk.id = 0
      · rw [if_pos hm] at h ⊢
        exact ⟨[], sk, rest, rfl,
          Err.dropRateUpdateFailed.inj (Except.error.inj h), rfl⟩
      · rw [if_neg hm] at h ⊢
        dsimp only at h ⊢
        obtain ⟨pre, sk', suf, hl, hn, hst⟩ :=
          ih (applyDropRate st lid sk.id (probGet probs sk.name)) h
        refine ⟨sk :: pre, sk', suf, ?_, hn, ?_⟩
        · rw [List.cons_append, hl]
        · rw [List.foldl_cons]
          exact hst

/-- C3: whenever `set_probabilities` fails on a per-member drop-rate write,
the operation as a whole returns an error, yet the recomputed `base_price`
is already committed and the drop rates written before the failing member
remain in place — the final store is exactly the base-price commit plus the
prefix of drop-rate writes, with no rollback. -/
theorem C3_set_probabilities_no_rollback (fail : StoreCall → Bool) (s : Store)
    (name : String) (probs : List (String × ℚ)) (sn : String)
    (hres : (update_probabilities fail s name probs).res =
      .error (.dropRateUpdateFailed sn)) :
    ∃ contents lid adjusted pre sk suf,
      get_lootbox_contents s name = .ok contents ∧
      adjusted = (contents.map (fun k => k.base_price * probGet probs k.name)).sum
        * (6 / 5) ∧
      get_lootbox_id_by_name (applyBasePrice s name adjusted) name = some lid ∧
      contents = pre ++ sk :: suf ∧ sk.name = sn ∧
      (update_probabilities fail s name probs).store =
        pre.foldl (fun t k => applyDropRate t lid k.id (probGet probs k.name))
          (applyBasePrice s name adjusted) ∧
      (∀ lb ∈ (update_probabilities fail s name probs).store.lootbox_reference,
        lb.name = name → lb.base_price = some adjusted) := by
  unfold update_probabilities at hres ⊢
  cases hc : get_lootbox_contents s name with
  | error e =>
    rw [hc] at hres
    dsimp only at hres
    have := contents_error_shape s name e hc
    rw [this] at hres
    cases Except.error.inj hres
  | ok contents =>
    rw [hc] at hres
    dsimp only at hres ⊢
    by_cases hc0 : contents = []
    · rw [if_pos hc0] at hres
      cases Except.error.inj hres
    rw [if_neg hc0] at hres ⊢
    by_cases hlen : probs.length ≠ ((contents.map (fun sk => sk.name)).dedup).length
    · rw [if_pos hlen] at hres
      cases Except.error.inj hres
    rw [if_neg hlen] at hres ⊢
    cases hfind : (probs.map Prod.fst).find?
        (fun k => !((contents.map (fun sk => sk.name)).contains k)) with
    | some k =>
      rw [hfind] at hres
      cases Except.error.inj hres
    | none =>
    rw [hfind] at hres
    dsimp only at hres ⊢
    by_cases hsum : ¬ |(probs.map Prod.snd).sum - 1| < probEps
    · rw [if_pos hsum] at hres
      cases Except.error.inj hres
    rw [if_neg hsum] at hres ⊢
    by_cases hf : fail (StoreCall.updateBasePrice name) = true
    · rw [if_pos hf] at hres
      cases Except.error.inj hres
    rw [if_neg hf] at hres ⊢
    by_cases hcount : s.lootbox_reference.countP (fun lb => lb.name == name) = 0
    · rw [if_pos hcount] at hres
      cases Except.error.inj hres
    rw [if_neg hcount] at hres ⊢
    cases hlid : get_lootbox_id_by_name
        (applyBasePrice s name
          ((contents.map (fun sk => sk.base_price * probGet probs sk.name)).sum
            * (6 / 5))) name with
    | none =>
      rw [hlid] at hres
      cases Except.error.inj hres
    | some lid =>
    rw [hlid] at hres
    dsimp only at hres ⊢
    by_cases h0 : lid = 0
    · rw [if_pos h0] at hres
      cases Except.error.inj hres
    rw [if_neg h0] at hres ⊢
    obtain ⟨pre, sk, suf, hl, hn, hst⟩ :=
      writeDropRates_error fail lid probs sn contents _ hres
    refine ⟨contents, lid, _, pre, sk, suf, rfl, rfl, hlid, hl, hn, hst, ?_⟩
    intro lb hlb hname
    rw [hst, foldl_applyDropRate_refs] at hlb
    exact applyBasePrice_mem s name _ lb hlb hname

/-- Concrete run for the C3 witness: with the oracle failing exactly the
drop-rate write of B, `set_probabilities` on the demo store returns the
drop-rate failure for B. -/
theorem demo_drop_fail_res :
    (update_probabilities failDropB demoStore "L" [("A", 1 / 4), ("B", 3 / 4)]).res =
      .error (.dropRateUpdateFailed "B") := by
  have hsum : |(List.map Prod.snd
      [("A", (1:ℚ) / 4), ("B", (3:ℚ) / 4)]).sum - 1| < probEps := by
    show |((1:ℚ) / 4 + ((3:ℚ) / 4 + 0)) - 1| < probEps
    norm_num [probEps]
  unfold update_probabilities
  rw [show get_lootbox_contents demoStore "L" = .ok [skinA, skinB] from rfl]
  dsimp only
  rw [if_neg (by decide), if_neg (by decide)]
  rw [show (List.map Prod.fst [("A", (1:ℚ) / 4), ("B", (3:ℚ) / 4)]).find?
      (fun k => !((List.map (fun sk => sk.name) [skinA, skinB]).contains k)) =
      none from rfl]
  dsimp only
  rw [if_neg (not_not_intro hsum)]
  rfl

/-- Witness for C3 at the demo store: the price is committed at 21 and
the drop rate of A is already written when the write for B fails. -/
theorem C3_set_probabilities_no_rollback_witness :
    (update_probabilities failDropB demoStore "L" [("A", 1 / 4), ("B", 3 / 4)]).res =
      .error (.dropRateUpdateFailed "B") ∧
    ∃ contents lid adjusted pre sk suf,
      get_lootbox_contents demoStore "L" = .ok contents ∧
      adjusted = (contents.map (fun k => k.base_price *
        probGet [("A", 1 / 4), ("B", 3 / 4)] k.name)).sum * (6 / 5) ∧
      get_lootbox_id_by_name (applyBasePrice demoStore "L" adjusted) "L" = some lid ∧
      contents = pre ++ sk :: suf ∧ sk.name = "B" ∧
      (update_probabilities failDropB demoStore "L" [("A", 1 / 4), ("B", 3 / 4)]).store =
        pre.foldl (fun t k => applyDropRate t lid k.id
          (probGet [("A", 1 / 4), ("B", 3 / 4)] k.name))
          (applyBasePrice demoStore "L" adjusted) ∧
      (∀ lb ∈ (update_probabilities failDropB demoStore "L"
          [("A", 1 / 4), ("B", 3 / 4)]).store.lootbox_reference,
        lb.name = "L" → lb.base_price = some adjusted) :=
  ⟨demo_drop_fail_res,
   C3_set_probabilities_no_rollback failDropB demoStore "L"
     [("A", 1 / 4), ("B", 3 / 4)] "B" demo_drop_fail_res⟩

/-- A drop-rate edge write never changes the edge's lootbox id. -/
theorem updEdge_lootbox_id (lid : Nat) (sid : String) (r : ℚ) (e : LootboxSkin) :
    (updEdge lid sid r e).lootbox_id = e.lootbox_id := by
  unfold updEdge
  split <;> rfl

/-- A drop-rate edge write never changes the edge's skin id. -/
theorem updEdge_skin_id (lid : Nat) (sid : String) (r : ℚ) (e : LootboxSkin) :
    (updEdge lid sid r e).skin_id = e.skin_id := by
  unfold updEdge
  split <;> rfl

/-- Drop-rate writes preserve how many rows each key selects. -/
theorem matchCount_applyDropRate (st : Store) (lid : Nat) (sid : String) (r : ℚ)
    (lid' : Nat) (sid' : String) :
    matchCount (applyDropRate st lid sid r) lid' sid' = matchCount st lid' sid' := by
  unfold matchCount applyDropRate
  rw [List.countP_map]
  refine List.countP_congr fun e _ => ?_
  simp [Function.comp, updEdge_lootbox_id, updEdge_skin_id]

/-- Membership in the edge table after one drop-rate write: a row matching
the written key carries the new rate, any other row was already present. -/
theorem applyDropRate_mem (st : Store) (lid : Nat) (sid : String) (r : ℚ)
    (e : LootboxSkin) (he : e ∈ (applyDropRate st lid sid r).lootbox_skins) :
    (e.lootbox_id = lid ∧ e.skin_id = sid → e.drop_rate = r) ∧
    (¬ (e.lootbox_id = lid ∧ e.skin_id = sid) → e ∈ st.lootbox_skins) := by
  unfold applyDropRate at he
  obtain ⟨e₀, he₀, heq⟩ := List.mem_map.mp he
  unfold updEdge at heq
  by_cases h : e₀.lootbox_id = lid ∧ e₀.skin_id = sid
  · rw [if_pos h] at heq
    constructor
    · intro _
      rw [← heq]
    · intro hn
      exfalso
      apply hn
      rw [← heq]
      exact h
  · rw [if_neg h] at heq
    constructor
    · intro hm
      exfalso
      apply h
      rw [heq]
      exact hm
    · intro _
      rw [← heq]
      exact he₀

/-- The drop-rate write loop never touches the skins or lootbox tables. -/
theorem writeDropRates_frame (fail : StoreCall → Bool) (lid : Nat)
    (probs : List (String × ℚ)) :
    ∀ (l : List Skin) (st : Store),
      (writeDropRates fail st lid probs l).store.lootbox_reference =
        st.lootbox_reference ∧
      (writeDropRates fail st lid probs l).store.skins_reference =
        st.skins_reference := by
  intro l
  induction l with
  | nil => intro st; exact ⟨rfl, rfl⟩
  | cons sk rest ih =>
    intro st
    unfold writeDropRates
    by_cases hf : fail (StoreCall.updateDropRate lid sk.id) = true
    · rw [if_pos hf]
      exact ⟨rfl, rfl⟩
    · rw [if_neg hf]
      by_cases hm : matchCount st lid sk.id = 0
      · rw [if_pos hm]
        exact ⟨rfl, rfl⟩
      · rw [if_neg hm]
        exact ih (applyDropRate st lid sk.id (probGet probs sk.name))

/-- With a never-failing oracle, the drop-rate write loop succeeds whenever
every member has at least one matching edge row. -/
theorem writeDropRates_success (lid : Nat) (probs : List (String × ℚ)) :
    ∀ (l : List Skin) (st : Store),
      (∀ sk ∈ l, 0 < matchCount st lid sk.id) →
      (writeDropRates noFail st lid probs l).res = .ok () := by
  intro l
  induction l with
  | nil => intro st _; rfl
  | cons sk rest ih =>
    intro st hcnt
    unfold writeDropRates
    rw [if_neg (by simp [noFail])]
    rw [if_neg (Nat.pos_iff_ne_zero.mp (hcnt sk (List.mem_cons_self sk rest)))]
    dsimp only
    refine ih (applyDropRate st lid sk.id (probGet probs sk.name)) fun sk' hsk' => ?_
    rw [matchCount_applyDropRate]
    exact hcnt sk' (List.mem_cons_of_mem sk hsk')

/-- Every edge in the table after the drop-rate write loop either predates
the loop or carries one of the written keys. -/
theorem writeDropRates_mem (fail : StoreCall → Bool) (lid : Nat)
    (probs : List (String × ℚ)) :
    ∀ (l : List Skin) (st : Store) (e : LootboxSkin),
      e ∈ (writeDropRates fail st lid probs l).store.lootbox_skins →
      e ∈ st.lootbox_skins ∨
        (e.lootbox_id = lid ∧ e.skin_id ∈ l.map (fun sk => sk.id)) := by
  intro l
  induction l with
  | nil => intro st e he; exact Or.inl he
  | cons sk rest ih =>
    intro st e he
    unfold writeDropRates at he
    by_cases hf : fail (StoreCall.updateDropRate lid sk.id) = true
    · rw [if_pos hf] at he
      exact Or.inl he
    · rw [if_neg hf] at he
      by_cases hm : matchCount st lid sk.id = 0
      · rw [if_pos hm] at he
        exact Or.inl he
      · rw [if_neg hm] at he
        dsimp only at he
        rcases ih (applyDropRate st lid sk.id (probGet probs sk.name)) e he with
          h | ⟨h1, h2⟩
        · by_cases hk : e.lootbox_id = lid ∧ e.skin_id = sk.id
          · exact Or.inr ⟨hk.1, by rw [hk.2]; simp⟩
          · exact Or.inl ((applyDropRate_mem st lid sk.id _ e h).2 hk)
        · refine Or.inr ⟨h1, ?_⟩
          rw [List.map_cons]
          exact List.mem_cons_of_mem _ h2

/-- After a successful drop-rate write loop over members with distinct skin
ids, every edge carrying a member's key stores that member's assigned
probability. -/
theorem writeDropRates_rates (lid : Nat) (probs : List (String × ℚ)) :
    ∀ (l : List Skin) (st : Store),
      (l.map (fun sk => sk.id)).Nodup →
      (∀ sk ∈ l, 0 < matchCount st lid sk.id) →
      ∀ sk ∈ l, ∀ e ∈ (writeDropRates noFail st lid probs l).store.lootbox_skins,
        e.lootbox_id = lid → e.skin_id = sk.id →
        e.drop_rate = probGet probs sk.name := by
  intro l
  induction l with
  | nil =>
    intro st _ _ sk hsk
    cases hsk
  | cons sk₀ rest ih =>
    intro st hnodup hcnt sk hsk e he h1 h2
    unfold writeDropRates at he
    rw [if_neg (by simp [noFail])] at he
    rw [if_neg (Nat.pos_iff_ne_zero.mp (hcnt sk₀ (List.mem_cons_self sk₀ rest)))] at he
    dsimp only at he
    have hnodup' : sk₀.id ∉ rest.map (fun sk => sk.id) ∧
        (rest.map (fun sk => sk.id)).Nodup := by
      rw [List.map_cons] at hnodup
      exact List.nodup_cons.mp hnodup
    rcases List.mem_cons.mp hsk with rfl | hsk'
    · rcases writeDropRates_mem noFail lid probs rest _ e he with h | ⟨-, h4⟩
      · exact ((applyDropRate_mem st lid sk.id _ e h).1 ⟨h1, h2⟩)
      · exfalso
        apply hnodup'.1
        rw [← h2]
        exact h4
    · refine ih (applyDropRate st lid sk₀.id (probGet probs sk₀.name))
        hnodup'.2 (fun sk' hsk'2 => ?_) sk hsk' e he h1 h2
      rw [matchCount_applyDropRate]
      exact hcnt sk' (List.mem_cons_of_mem sk₀ hsk'2)

/-- The base-price write never changes a lootbox row's name. -/
theorem updLootboxPrice_name (name : String) (p : ℚ) (lb : LootboxRef) :
    (updLootboxPrice name p lb).name = lb.name := by
  unfold updLootboxPrice
  split <;> rfl

/-- The base-price write never changes a lootbox row's identifier. -/
theorem updLootboxPrice_id (name : String) (p : ℚ) (lb : LootboxRef) :
    (updLootboxPrice name p lb).lootbox_id = lb.lootbox_id := by
  unfold updLootboxPrice
  split <;> rfl

/-- Name resolution is unaffected by the base-price write. -/
theorem get_lootbox_id_applyBasePrice (s : Store) (name : String) (p : ℚ) :
    get_lootbox_id_by_name (applyBasePrice s name p) name =
      get_lootbox_id_by_name s name := by
  have key : ∀ l : List LootboxRef,
      ((l.map (updLootboxPrice name p)).find? (fun lb => lb.name == name)).map
        (fun lb => lb.lootbox_id) =
      (l.find? (fun lb => lb.name == name)).map (fun lb => lb.lootbox_id) := by
    intro l
    induction l with
    | nil => rfl
    | cons lb t ih =>
      rw [List.map_cons]
      by_cases h : (lb.name == name) = true
      · rw [@List.find?_cons_of_pos _ (fun lb => lb.name == name)
            (updLootboxPrice name p lb) (t.map (updLootboxPrice name p))
            (by simpa [updLootboxPrice_name] using h),
          @List.find?_cons_of_pos _ (fun lb => lb.name == name) lb t h]
        simp [updLootboxPrice_id]
      · rw [@List.find?_cons_of_neg _ (fun lb => lb.name == name)
            (updLootboxPrice name p lb) (t.map (updLootboxPrice name p))
            (by simpa [updLootboxPrice_name] using h),
          @List.find?_cons_of_neg _ (fun lb => lb.name == name) lb t h]
        exact ih
  unfold get_lootbox_id_by_name applyBasePrice
  exact key s.lootbox_reference

/-- A successful contents read implies the resolved id is nonzero. -/
theorem contents_ok_lid_ne_zero (s : Store) (name : String) (lid : Nat)
    (contents : List Skin) (hlid : get_lootbox_id_by_name s name = some lid)
    (hcont : get_lootbox_contents s name = .ok contents) : lid ≠ 0 := by
  unfold get_lootbox_contents at hcont
  rw [hlid] at hcont
  dsimp only at hcont
  intro h0
  rw [if_pos h0] at hcont
  cases hcont

/-- Every member skin returned by a contents read has at least one matching
edge row in the store. -/
theorem contents_member_matchCount (s : Store) (name : String) (lid : Nat)
    (contents : List Skin) (hlid : get_lootbox_id_by_name s name = some lid)
    (h0 : lid ≠ 0) (hcont : get_lootbox_contents s name = .ok contents) :
    ∀ sk ∈ contents, 0 < matchCount s lid sk.id := by
  intro sk hsk
  have heq := contents_ok_eq s name lid contents hlid h0 hcont
  rw [heq] at hsk
  obtain ⟨e, he, hres⟩ := List.mem_filterMap.mp hsk
  unfold lootboxEdges at he
  have he' := List.mem_filter.mp he
  have hid : sk.id = e.skin_id := by
    unfold get_skin_by_id at hres
    have := List.find?_some hres
    simpa using this
  have hlid2 : e.lootbox_id = lid := by simpa using he'.2
  unfold matchCount
  refine List.countP_pos_iff.mpr ⟨e, he'.1, ?_⟩
  simp [hlid2, hid]

/-- C1: for every lootbox with at least one member and every probability
mapping that passes the preconditions, `set_probabilities` (with all store
writes succeeding) succeeds, sets the lootbox's `base_price` to 1.2 times
the drop-weighted member price sum, and afterwards every member's stored
`drop_rate` equals its mapped probability. -/
theorem C1_set_probabilities_price_and_rates (s : Store) (name : String)
    (probs : List (String × ℚ)) (contents : List Skin) (lid : Nat)
    (hlid : get_lootbox_id_by_name s name = some lid)
    (hcont : get_lootbox_contents s name = .ok contents)
    (hne : contents ≠ [])
    (hnames : (contents.map (fun sk => sk.name)).Nodup)
    (hids : (contents.map (fun sk => sk.id)).Nodup)
    (hlen : probs.length = contents.length)
    (hmem : ∀ k ∈ probs.map Prod.fst, k ∈ contents.map (fun sk => sk.name))
    (hsum : |(probs.map Prod.snd).sum - 1| < probEps) :
    (update_probabilities noFail s name probs).res = .ok () ∧
    (∀ lb ∈ (update_probabilities noFail s name probs).store.lootbox_reference,
      lb.name = name → lb.base_price =
        some ((contents.map (fun sk => sk.base_price * probGet probs sk.name)).sum
          * (6 / 5))) ∧
    (∀ sk ∈ contents,
      ∀ e ∈ (update_probabilities noFail s name probs).store.lootbox_skins,
        e.lootbox_id = lid → e.skin_id = sk.id →
        e.drop_rate = probGet probs sk.name) := by
  have h0 := contents_ok_lid_ne_zero s name lid contents hlid hcont
  have hcnt := contents_member_matchCount s name lid contents hlid h0 hcont
  have hfind : (probs.map Prod.fst).find?
      (fun k => !((contents.map (fun sk => sk.name)).contains k)) = none := by
    refine List.find?_eq_none.mpr fun k hk => ?_
    simp [hmem k hk]
  have hlen2 : ¬ (probs.length ≠ ((contents.map (fun sk => sk.name)).dedup).length) := by
    rw [List.dedup_eq_self.mpr hnames, List.length_map]
    exact not_not_intro hlen
  have hcount : ¬ (s.lootbox_reference.countP (fun lb => lb.name == name) = 0) := by
    unfold get_lootbox_id_by_name at hlid
    obtain ⟨lb, hfind2, -⟩ := Option.map_eq_some'.mp hlid
    have hmem2 := List.mem_of_find?_eq_some hfind2
    have hp := List.find?_some hfind2
    have hpos : 0 < s.lootbox_reference.countP (fun lb => lb.name == name) :=
      List.countP_pos_iff.mpr ⟨lb, hmem2, hp⟩
    omega
  have hlook := get_lootbox_id_applyBasePrice s name
    ((contents.map (fun sk => sk.base_price * probGet probs sk.name)).sum * (6 / 5))
  have hrun : update_probabilities noFail s name probs =
      ⟨(writeDropRates noFail (applyBasePrice s name
          ((contents.map (fun sk => sk.base_price * probGet probs sk.name)).sum
            * (6 / 5))) lid probs contents).res,
       (writeDropRates noFail (applyBasePrice s name
          ((contents.map (fun sk => sk.base_price * probGet probs sk.name)).sum
            * (6 / 5))) lid probs contents).store,
       StoreCall.updateBasePrice name ::
         (writeDropRates noFail (applyBasePrice s name
          ((contents.map (fun sk => sk.base_price * probGet probs sk.name)).sum
            * (6 / 5))) lid probs contents).calls⟩ := by
    unfold update_probabilities
    rw [hcont]
    dsimp only
    rw [if_neg hne, if_neg hlen2, hfind]
    dsimp only
    rw [if_neg (not_not_intro hsum), if_neg (by simp [noFail]), if_neg hcount]
    rw [hlook, hlid]
    dsimp only
    rw [if_neg h0]
  refine ⟨?_, ?_, ?_⟩
  · rw [hrun]
    exact writeDropRates_success lid probs contents
      (applyBasePrice s name
        ((contents.map (fun sk => sk.base_price * probGet probs sk.name)).sum * (6 / 5)))
      (fun sk hsk => hcnt sk hsk)
  · intro lb hlb hn
    rw [hrun] at hlb
    dsimp only at hlb
    rw [(writeDropRates_frame noFail lid probs contents _).1] at hlb
    exact applyBasePrice_mem s name _ lb hlb hn
  · intro sk hsk e he h1 h2
    rw [hrun] at he
    dsimp only at he
    exact writeDropRates_rates lid probs contents
      (applyBasePrice s name
        ((contents.map (fun sk => sk.base_price * probGet probs sk.name)).sum * (6 / 5)))
      hids (fun sk' hsk' => hcnt sk' hsk') sk hsk e he h1 h2

/-- Witness for C1: assigning probabilities 1/4 and 3/4 to A and B on the
demo store succeeds, prices the lootbox at the stated markup formula, and
stores both drop rates. -/
theorem C1_set_probabilities_price_and_rates_witness :
    (update_probabilities noFail demoStore "L"
      [("A", 1 / 4), ("B", 3 / 4)]).res = .ok () ∧
    (∀ lb ∈ (update_probabilities noFail demoStore "L"
        [("A", 1 / 4), ("B", 3 / 4)]).store.lootbox_reference,
      lb.name = "L" → lb.base_price =
        some (([skinA, skinB].map (fun sk => sk.base_price *
          probGet [("A", 1 / 4), ("B", 3 / 4)] sk.name)).sum * (6 / 5))) ∧
    (∀ sk ∈ [skinA, skinB],
      ∀ e ∈ (update_probabilities noFail demoStore "L"
          [("A", 1 / 4), ("B", 3 / 4)]).store.lootbox_skins,
        e.lootbox_id = 1 → e.skin_id = sk.id →
        e.drop_rate = probGet [("A", 1 / 4), ("B", 3 / 4)] sk.name) :=
  C1_set_probabilities_price_and_rates demoStore "L" [("A", 1 / 4), ("B", 3 / 4)]
    [skinA, skinB] 1 (by decide) rfl (by decide) (by decide) (by decide)
    (by decide) (by decide)
    (by show |((1:ℚ) / 4 + ((3:ℚ) / 4 + 0)) - 1| < probEps; norm_num [probEps])

end PackageLootBox
